import Mathlib

/-!
Verification of the authorization decision engine of Flask-Authorize
(`flask_authorize/plugin.py`).

The embedding is shallow: Python dicts become association lists, Python
sets become deduplicated lists (`pyset`), `hasattr`-style optional
attributes become `Option` fields, and `None`-valued attributes become a
nested `Option`.  Raising an exception becomes an `Except` value.
-/

namespace FlaskAuthorize

/-- A restriction or allowance map of a credential: a Python dict from an
object-type key to a list of action names (`cred.restrictions`,
`cred.allowances`). -/
abbrev ActionMap := List (String × List String)

/-- Python `d.get(k, dflt)` on an `ActionMap`. -/
def dictGet (d : ActionMap) (k : String) (dflt : List String) : List String :=
  match d.find? (fun p => p.1 == k) with
  | some p => p.2
  | none => dflt

/-- Python `set(l)`: the distinct elements of `l`.  Only membership and
cardinality of the result are ever used, so the order `dedup` picks is
irrelevant. -/
def pyset (l : List String) : List String := l.dedup

/-- A credential (a Role or a Group object).
`name = none` models an object without a `name` attribute; `pyStr` is its
`str(...)` representation, used as fallback.  For `restrictions` and
`allowances`, the outer `none` models a missing attribute and `some none`
models an attribute that is Python `None`. -/
structure Credential where
  name : Option String
  pyStr : String
  restrictions : Option (Option ActionMap)
  allowances : Option (Option ActionMap)
  deriving DecidableEq, Repr

/-- A subject (`user`).  `roles = none` / `groups = none` model a user
object without the corresponding attribute; `uid` distinguishes users
(Python `==` on plain objects is identity). -/
structure User where
  uid : Nat
  roles : Option (List Credential)
  groups : Option (List Credential)
  deriving DecidableEq, Repr

/-- The `permissions` dict of a target object; each tier key may be
absent (`dict.get(tier, \x7b\x7d)` then yields an empty collection). -/
structure Permissions where
  owner : Option (List String)
  group : Option (List String)
  other : Option (List String)
  deriving DecidableEq, Repr

/-- A target object passed to the authorizer.
`typeKey` — Modelled from the spec: `table_key(obj.__class__)` comes from
the `mixins` module, which is not part of the analysed source; per spec
§4.1 it is a stable key derived from the object's concrete type
(`object_type_key`), so each target carries its type's key directly.
`permissions = none` models an object without a `permissions` attribute;
likewise `owner` and `group` model optional attributes. -/
structure Target where
  typeKey : String
  permissions : Option Permissions
  owner : Option User
  group : Option Credential
  deriving DecidableEq, Repr

/-- Modelled from the spec: `default_allowances()` lives in the `mixins`
module, which is not part of the analysed source; spec §4.1 fixes it to
the action set read, update, delete. -/
def default_allowances : List String := ["read", "update", "delete"]

/-- Python `has_permission(expected, actual)` (plugin.py:39-45):
`len(set(expected).intersection(actual)) == len(expected)`. -/
def has_permission (expected actual : List String) : Bool :=
  ((pyset expected).filter (fun a => decide (a ∈ actual))).length == expected.length

/-- The name a credential is matched by:
`role.name if hasattr(role, 'name') else str(role)` (plugin.py:116,129). -/
def credName (c : Credential) : String :=
  match c.name with
  | some n => n
  | none => c.pyStr

/-- Python `user_has_role(user, roles)` (plugin.py:109-119). -/
def user_has_role (user : User) (roles : List String) : Bool :=
  match user.roles with
  | none => false
  | some rs => rs.any (fun role => decide (credName role ∈ roles))

/-- Python `user_in_group(user, groups)` (plugin.py:122-132). -/
def user_in_group (user : User) (groups : List String) : Bool :=
  match user.groups with
  | none => false
  | some gs => gs.any (fun group => decide (credName group ∈ groups))

/-- The credentials gathered from a user: roles then groups
(plugin.py:139-143, 159-164). -/
def credentialsOf (user : User) : List Credential :=
  user.roles.getD [] ++ user.groups.getD []

/-- Python `user_is_restricted(user, operation, obj)` (plugin.py:135-153). -/
def user_is_restricted (user : User) (operation : List String) (obj : Target) : Bool :=
  let key := obj.typeKey
  let credentials := credentialsOf user
  if credentials.isEmpty then false
  else
    credentials.any (fun cred =>
      match cred.restrictions with
      | some (some rmap) =>
          ((pyset (dictGet rmap key [])).filter (fun a => decide (a ∈ operation))).length != 0
      | _ => false)

/-- The allowance lists gathered across credentials (plugin.py:169-179):
`none` models the early `return True` taken when a credential lacks an
`allowances` attribute or its map is `None`; otherwise the per-credential
lists (entry for `key`, defaulting to `default_allowances`) in order. -/
def gatherAllowances (key : String) : List Credential → Option (List String)
  | [] => some []
  | cred :: rest =>
      match cred.allowances with
      | none => none
      | some none => none
      | some (some amap) =>
          (gatherAllowances key rest).map (fun l => dictGet amap key default_allowances ++ l)

/-- Python `user_is_allowed(user, operation, obj)` (plugin.py:156-186). -/
def user_is_allowed (user : User) (operation : List String) (obj : Target) : Bool :=
  let key := obj.typeKey
  let credentials := credentialsOf user
  if credentials.isEmpty then true
  else
    match gatherAllowances key credentials with
    | none => true
    | some allowances =>
        ((pyset allowances).filter (fun a => decide (a ∈ operation))).length == operation.length

/-- An `Authorizer` (the Requirement of the spec): the four normalized
list fields set up by `Authorizer.__init__` (plugin.py:224-236). -/
structure Authorizer where
  permission : List String
  has_role : List String
  in_group : List String
  model : List String
  deriving DecidableEq, Repr

/-- The per-target tier checks of `Authorizer.allowed` (plugin.py:321-339):
`other`, then `owner` (only when the target has an `owner` attribute equal
to the user), then `group` (only when the target has a `group` attribute,
the user has a `groups` attribute, and `target.group in user.groups`),
each returning allow as soon as `has_permission` succeeds. -/
def tierCheck (u : User) (operation : List String) (arg : Target) (perms : Permissions) : Bool :=
  if has_permission operation (perms.other.getD []) then true
  else
    if (match arg.owner with
        | some o => decide (o = u) && has_permission operation (perms.owner.getD [])
        | none => false) then true
    else
      match arg.group, u.groups with
      | some g, some gs => decide (g ∈ gs) && has_permission operation (perms.group.getD [])
      | _, _ => false

/-- The `for arg in args` loop of `Authorizer.allowed` (plugin.py:306-341).
A target without a `permissions` attribute is skipped (the
`isinstance(arg.__class__, six.class_types)` guard on line 309 always
holds for the objects modelled here, as every object's class is a class);
a restriction hit or a failed allowance check returns `False` for the
whole call; a tier success returns `True`; otherwise the loop continues,
and returns `False` when the list is exhausted. -/
def checkArgs (u : User) (operation : List String) : List Target → Bool
  | [] => false
  | arg :: rest =>
      match arg.permissions with
      | none => checkArgs u operation rest
      | some perms =>
          if user_is_restricted u operation arg then false
          else if !user_is_allowed u operation arg then false
          else if tierCheck u operation arg perms then true
          else checkArgs u operation rest

/-- Python `Authorizer.allowed(*args, user=...)` (plugin.py:275-341),
taking the already-resolved user (`None` after resolution means an
anonymous caller). -/
def Authorizer.allowed (auth : Authorizer) (user : Option User) (args : List Target) : Bool :=
  match user with
  | none => false
  | some u =>
      if auth.has_role.length != 0 && user_has_role u auth.has_role then true
      else if auth.in_group.length != 0 && user_in_group u auth.in_group then true
      else if auth.permission.length == 0 then false
      else checkArgs u (pyset auth.permission) args

/-- The merged Authorizer built on a duplicate decoration
(plugin.py:252-257): field-wise list concatenation. -/
def mergeAuthorizer (original incoming : Authorizer) : Authorizer :=
  { permission := original.permission ++ incoming.permission
    has_role := original.has_role ++ incoming.has_role
    in_group := original.in_group ++ incoming.in_group
    model := original.model ++ incoming.model }

/-- The registry `AUTHORIZE_CACHE`, a Python dict keyed by function name. -/
abbrev Registry := List (String × Authorizer)

/-- Python `key in AUTHORIZE_CACHE` / `AUTHORIZE_CACHE[key]` lookup. -/
def lookupAuth (cache : Registry) (k : String) : Option Authorizer :=
  match cache.find? (fun p => p.1 == k) with
  | some p => some p.2
  | none => none

/-- Python dict assignment `AUTHORIZE_CACHE[k] = v`. -/
def storeAuth : Registry → String → Authorizer → Registry
  | [], k, v => [(k, v)]
  | (k0, v0) :: rest, k, v =>
      if k0 == k then (k, v) :: rest else (k0, v0) :: storeAuth rest k v

/-- The duplicate-decoration registry logic of `Authorizer.__call__`
(plugin.py:248-258): store the incoming Authorizer when the key is
unseen, otherwise store a new merged Authorizer. -/
def registryRegister (cache : Registry) (k : String) (incoming : Authorizer) : Registry :=
  match lookupAuth cache k with
  | none => storeAuth cache k incoming
  | some original => storeAuth cache k (mergeAuthorizer original incoming)

/-- An argument of `Authorizer.__call__`: either a plain object to
authorize or a function to decorate (identified by its `__name__`). -/
inductive CallArg where
  | obj : Target → CallArg
  | fn : String → CallArg
  deriving DecidableEq, Repr

/-- The outcome of a successful `Authorizer.__call__`: a decision
(non-decorator use) or a wrapped function registered in the cache. -/
inductive CallOutcome where
  | decision : Bool → CallOutcome
  | decorated : String → CallOutcome
  deriving DecidableEq, Repr

/-- The targets `allowed` ends up examining among call arguments:
function objects have no `permissions` attribute and are skipped anyway. -/
def targetsOf (cargs : List CallArg) : List Target :=
  cargs.filterMap (fun a =>
    match a with
    | .obj t => some t
    | .fn _ => none)

/-- Python `Authorizer.__call__(*cargs, **ckwargs)` (plugin.py:238-273).
With no arguments it raises
`AssertionError('Authorizer needs to be passed function for decoration or objects to authorize.')`;
with a leading non-function argument it returns `allowed` on the
arguments (with the user resolved from the `user` keyword or the current
user, here passed already resolved); with a leading function it registers
into the cache and returns the decorated function. -/
def Authorizer.call (auth : Authorizer) (cache : Registry) (cargs : List CallArg)
    (user : Option User) : Except String (CallOutcome × Registry) :=
  match cargs with
  | [] => .error "Authorizer needs to be passed function for decoration or objects to authorize."
  | .obj _ :: _ => .ok (.decision (auth.allowed user (targetsOf cargs)), cache)
  | .fn fname :: _ => .ok (.decorated fname, registryRegister cache fname auth)

/-- A target on which the evaluator loop neither allows nor denies, so
the loop continues with the next target: either the target has no
`permissions` attribute, or it passes the restriction and allowance
checks but none of its tiers grant the operation. -/
def targetContinues (u : User) (op : List String) (t : Target) : Bool :=
  match t.permissions with
  | none => true
  | some perms =>
      !user_is_restricted u op t && user_is_allowed u op t && !tierCheck u op t perms

/-- The union, in credential order, of the allowance sets looked up by
`key`, each credential falling back to `default_allowances` when its map
has no entry for `key` (credentials without a usable map contribute
nothing; they are only reached when no such credential exists). -/
def unionAllowances (key : String) : List Credential → List String
  | [] => []
  | c :: rest =>
      (match c.allowances with
       | some (some m) => dictGet m key default_allowances
       | _ => []) ++ unionAllowances key rest

/-- Tier checks as the spec words them (§4.4.6c): a disjunction of the
three tiers, `other` / `owner` / `group`, each a guarded subset test. -/
def specTierAllows (u : User) (op : List String) (t : Target) (perms : Permissions) : Bool :=
  has_permission op (perms.other.getD [])
  || ((match t.owner with
       | some o => decide (o = u)
       | none => false) && has_permission op (perms.owner.getD []))
  || ((match t.group, u.groups with
       | some g, some gs => decide (g ∈ gs)
       | _, _ => false) && has_permission op (perms.group.getD []))

section Lemmas

lemma nodup_length_eq_of_mem_iff {l1 l2 : List String} (h1 : l1.Nodup) (h2 : l2.Nodup)
    (h : ∀ a, a ∈ l1 ↔ a ∈ l2) : l1.length = l2.length :=
  ((List.perm_ext_iff_of_nodup h1 h2).mpr h).length_eq

lemma filter_length_eq_iff {p : String → Bool} {l : List String} :
    (l.filter p).length = l.length ↔ ∀ a ∈ l, p a := by
  constructor
  · intro h
    exact List.filter_eq_self.mp ((List.filter_sublist l).eq_of_length h)
  · intro h
    rw [List.filter_eq_self.mpr h]

lemma pyset_filter_length {op : List String} (l : List String) (hop : op.Nodup) :
    ((pyset l).filter (fun a => decide (a ∈ op))).length =
      (op.filter (fun a => decide (a ∈ l))).length := by
  refine nodup_length_eq_of_mem_iff ((List.nodup_dedup l).filter _) (hop.filter _) ?_
  intro a
  simp only [List.mem_filter, pyset, List.mem_dedup, decide_eq_true_eq]
  exact and_comm

lemma checkArgs_cons_none {u : User} {op : List String} {t : Target} {rest : List Target}
    (h : t.permissions = none) : checkArgs u op (t :: rest) = checkArgs u op rest := by
  simp [checkArgs, h]

lemma checkArgs_cons_some {u : User} {op : List String} {t : Target} {perms : Permissions}
    {rest : List Target} (h : t.permissions = some perms) :
    checkArgs u op (t :: rest) =
      (if user_is_restricted u op t then false
       else if !user_is_allowed u op t then false
       else if tierCheck u op t perms then true
       else checkArgs u op rest) := by
  simp only [checkArgs, h]

lemma checkArgs_cons_continue {u : User} {op : List String} {t : Target} {rest : List Target}
    (h : targetContinues u op t = true) :
    checkArgs u op (t :: rest) = checkArgs u op rest := by
  cases hp : t.permissions with
  | none => exact checkArgs_cons_none hp
  | some perms =>
      rw [checkArgs_cons_some hp]
      unfold targetContinues at h
      rw [hp] at h
      simp only [Bool.and_eq_true, Bool.not_eq_true'] at h
      simp [h.1.1, h.1.2, h.2]

lemma checkArgs_append_continue {u : User} {op : List String} {ts1 ts2 : List Target}
    (h : ∀ s ∈ ts1, targetContinues u op s = true) :
    checkArgs u op (ts1 ++ ts2) = checkArgs u op ts2 := by
  induction ts1 with
  | nil => rfl
  | cons s ts1 ih =>
      rw [List.cons_append, checkArgs_cons_continue (h s (by simp))]
      exact ih (fun x hx => h x (by simp [hx]))

lemma user_has_role_of_mem {u : User} {rs : List Credential} {roles : List String}
    (hroles : u.roles = some rs) {c : Credential} (hc : c ∈ rs)
    (hname : credName c ∈ roles) : user_has_role u roles = true := by
  unfold user_has_role
  rw [hroles]
  exact List.any_eq_true.mpr ⟨c, hc, by simp [hname]⟩

lemma allowed_eq_checkArgs {auth : Authorizer} {u : User} {args : List Target}
    (h1 : user_has_role u auth.has_role = false)
    (h2 : user_in_group u auth.in_group = false)
    (h3 : auth.permission ≠ []) :
    auth.allowed (some u) args = checkArgs u (pyset auth.permission) args := by
  have hlen : (auth.permission.length == 0) = false := by
    simp [List.length_eq_zero, h3]
  simp [Authorizer.allowed, h1, h2, hlen]

end Lemmas

section Claims

/-- C8. Subset exactness of the permission test: on duplicate-free lists
(the embedding of Python sets), `has_permission expected actual` is true
exactly when every element of `expected` occurs in `actual`. -/
theorem has_permission_subset (expected actual : List String) (h : expected.Nodup) :
    has_permission expected actual = true ↔ ∀ x ∈ expected, x ∈ actual := by
  unfold has_permission pyset
  rw [List.dedup_eq_self.mpr h, beq_iff_eq]
  exact filter_length_eq_iff.trans (by simp)

/-- Witness for C8 at the spec's concrete examples. -/
theorem has_permission_subset_witness :
    has_permission ["read", "update"] ["read"] = false
    ∧ has_permission ["read"] ["read", "update"] = true
    ∧ has_permission [] ["delete"] = true := by
  refine ⟨?_, ?_, ?_⟩
  · have h := has_permission_subset ["read", "update"] ["read"] (by decide)
    revert h
    decide
  · exact (has_permission_subset ["read"] ["read", "update"] (by decide)).mpr (by decide)
  · exact (has_permission_subset [] ["delete"] (by decide)).mpr (by decide)

/-- C6. Anonymous deny: whatever the Requirement and the targets, an
absent (unresolvable) subject makes `allowed` return the deny decision
`false`, not an error. -/
theorem anonymous_deny (auth : Authorizer) (args : List Target) :
    auth.allowed none args = false := rfl

/-- C1. Role bypass precedence: if the subject holds a credential whose
name is among the Requirement's roles, `allowed` is true for every
permission list, group list and target list, including zero targets. -/
theorem role_bypass (auth : Authorizer) (u : User) (args : List Target)
    (rs : List Credential) (hroles : u.roles = some rs)
    (c : Credential) (hc : c ∈ rs) (hname : credName c ∈ auth.has_role) :
    auth.allowed (some u) args = true := by
  have hr : user_has_role u auth.has_role = true := user_has_role_of_mem hroles hc hname
  have hne : (auth.has_role.length != 0) = true := by
    have : auth.has_role ≠ [] := List.ne_nil_of_mem hname
    simp [List.length_eq_zero, this]
  simp [Authorizer.allowed, hr, hne]

/-- Witness for C1: an admin-role credential bypasses a permission
requirement with zero targets supplied. -/
theorem role_bypass_witness :
    (Authorizer.mk ["update"] ["admin"] [] []).allowed
      (some ⟨1, some [⟨some "admin", "admin", none, none⟩], none⟩) [] = true :=
  role_bypass _ _ _ [⟨some "admin", "admin", none, none⟩] rfl
    ⟨some "admin", "admin", none, none⟩ (by decide) (by decide)

lemma lookupAuth_storeAuth_self (cache : Registry) (k : String) (v : Authorizer) :
    lookupAuth (storeAuth cache k v) k = some v := by
  induction cache with
  | nil => simp [storeAuth, lookupAuth]
  | cons p rest ih =>
      obtain ⟨k0, v0⟩ := p
      by_cases hk : k0 = k
      · simp [storeAuth, hk, lookupAuth]
      · have hbeq : (k0 == k) = false := beq_eq_false_iff_ne.mpr hk
        simp only [storeAuth, hbeq, if_false]
        simpa [lookupAuth, List.find?, hbeq] using ih

/-- C5. Registry merge by concatenation: registering Requirement `A` and
then `B` under a previously unseen key stores a composite whose four
fields are the field-wise concatenations, order and duplicates
preserved. -/
theorem registry_merge (cache : Registry) (k : String) (A B : Authorizer)
    (h : lookupAuth cache k = none) :
    lookupAuth (registryRegister (registryRegister cache k A) k B) k =
      some (Authorizer.mk (A.permission ++ B.permission) (A.has_role ++ B.has_role)
        (A.in_group ++ B.in_group) (A.model ++ B.model)) := by
  unfold registryRegister
  rw [h, lookupAuth_storeAuth_self, lookupAuth_storeAuth_self]
  rfl

/-- Witness for C5 on an empty registry and two concrete Requirements
with a shared permission, showing duplicates survive. -/
theorem registry_merge_witness :
    lookupAuth
      (registryRegister
        (registryRegister [] "update_user" (Authorizer.mk ["update"] [] [] []))
        "update_user" (Authorizer.mk ["update"] ["admin"] [] []))
      "update_user" =
      some (Authorizer.mk ["update", "update"] ["admin"] [] []) :=
  registry_merge [] "update_user" (Authorizer.mk ["update"] [] [] [])
    (Authorizer.mk ["update"] ["admin"] [] []) rfl

/-- C9, counterexample: invoking a composite requirement with zero
arguments does error, but the raised message is the source's
`Authorizer needs to be passed function for decoration or objects to authorize.`,
not the message the claim quotes. -/
theorem zero_arg_call_cx :
    (Authorizer.mk ["read"] [] [] []).call [] [] none =
        Except.error "Authorizer needs to be passed function for decoration or objects to authorize."
    ∧ (Authorizer.mk ["read"] [] [] []).call [] [] none ≠
        Except.error "needs either a callable to decorate or objects to authorize" := by
  refine ⟨rfl, fun h => ?_⟩
  exact absurd (Except.error.inj h) (by decide)

/-- C9, amended: calling a composite requirement with no arguments at
all fails, for every Requirement, cache and user, with the error message
`Authorizer needs to be passed function for decoration or objects to authorize.`
rather than returning a decision. -/
theorem zero_arg_call (auth : Authorizer) (cache : Registry) (user : Option User) :
    auth.call cache [] user =
      Except.error "Authorizer needs to be passed function for decoration or objects to authorize." :=
  rfl

/-- C10. Credential-name string fallback: a subject without the
roles (groups) collection never passes the role (group) bypass; a
credential with a `name` attribute is matched by that name and one
without it by its string representation; membership of the matched name
in the requirement's values characterizes the bypass helpers. -/
theorem credential_name_fallback :
    (∀ (u : User) (roles : List String), u.roles = none → user_has_role u roles = false)
    ∧ (∀ (u : User) (groups : List String), u.groups = none → user_in_group u groups = false)
    ∧ (∀ (c : Credential) (n : String), c.name = some n → credName c = n)
    ∧ (∀ (c : Credential), c.name = none → credName c = c.pyStr)
    ∧ (∀ (u : User) (rs : List Credential) (roles : List String), u.roles = some rs →
        (user_has_role u roles = true ↔ ∃ c ∈ rs, credName c ∈ roles))
    ∧ (∀ (u : User) (gs : List Credential) (groups : List String), u.groups = some gs →
        (user_in_group u groups = true ↔ ∃ c ∈ gs, credName c ∈ groups)) := by
  refine ⟨?_, ?_, ?_, ?_, ?_, ?_⟩
  · intro u roles h
    simp [user_has_role, h]
  · intro u groups h
    simp [user_in_group, h]
  · intro c n h
    simp [credName, h]
  · intro c h
    simp [credName, h]
  · intro u rs roles h
    simp [user_has_role, h, List.any_eq_true]
  · intro u gs groups h
    simp [user_in_group, h, List.any_eq_true]

/-- Witness for C10: a named credential matches by name, an unnamed one
by its string representation, and a user without a roles attribute never
passes the role bypass. -/
theorem credential_name_fallback_witness :
    user_has_role ⟨1, none, none⟩ ["admin"] = false
    ∧ credName ⟨some "admin", "strval", none, none⟩ = "admin"
    ∧ credName ⟨none, "strval", none, none⟩ = "strval"
    ∧ user_has_role ⟨2, some [⟨none, "strval", none, none⟩], none⟩ ["strval"] = true := by
  refine ⟨credential_name_fallback.1 _ ["admin"] rfl,
    credential_name_fallback.2.2.1 _ "admin" rfl,
    credential_name_fallback.2.2.2.1 _ rfl, ?_⟩
  exact (credential_name_fallback.2.2.2.2.1 _ [⟨none, "strval", none, none⟩] ["strval"] rfl).mpr
    ⟨⟨none, "strval", none, none⟩, by decide, by decide⟩

lemma user_is_restricted_of_witness {u : User} {op : List String} {t : Target}
    {c : Credential} (hc : c ∈ credentialsOf u) {m : ActionMap}
    (hm : c.restrictions = some (some m)) {a : String}
    (ha : a ∈ dictGet m t.typeKey []) (hop : a ∈ op) :
    user_is_restricted u op t = true := by
  have hemp : (credentialsOf u).isEmpty = false := by
    simp [List.isEmpty_iff, List.ne_nil_of_mem hc]
  unfold user_is_restricted
  simp only [hemp, Bool.false_eq_true, if_false]
  refine List.any_eq_true.mpr ⟨c, hc, ?_⟩
  rw [hm]
  have hmem : a ∈ (pyset (dictGet m t.typeKey [])).filter (fun x => decide (x ∈ op)) :=
    List.mem_filter.mpr ⟨List.mem_dedup.mpr ha, by simp [hop]⟩
  simp [List.length_eq_zero, List.ne_nil_of_mem hmem]

lemma checkArgs_head_restricted {u : User} {op : List String} {t : Target}
    {perms : Permissions} {rest : List Target} (hp : t.permissions = some perms)
    (hres : user_is_restricted u op t = true) :
    checkArgs u op (t :: rest) = false := by
  rw [checkArgs_cons_some hp]
  simp [hres]

/-- C2. Restriction short-circuit across targets: when the role and
group bypasses do not fire and the evaluation reaches (every earlier
target merely continues) a permission-bearing target for which some
credential's restrictions entry for the target's type key meets the
operation set, the whole call is denied, whatever targets follow. -/
theorem restriction_short_circuit (auth : Authorizer) (u : User)
    (ts1 : List Target) (t : Target) (ts2 : List Target)
    (hnr : user_has_role u auth.has_role = false)
    (hng : user_in_group u auth.in_group = false)
    (hcont : ∀ s ∈ ts1, targetContinues u (pyset auth.permission) s = true)
    (perms : Permissions) (hperm : t.permissions = some perms)
    (c : Credential) (hc : c ∈ credentialsOf u) (m : ActionMap)
    (hm : c.restrictions = some (some m))
    (a : String) (ha : a ∈ dictGet m t.typeKey []) (hop : a ∈ pyset auth.permission) :
    auth.allowed (some u) (ts1 ++ t :: ts2) = false := by
  have hpn : auth.permission ≠ [] :=
    List.ne_nil_of_mem (List.mem_dedup.mp hop)
  rw [allowed_eq_checkArgs hnr hng hpn, checkArgs_append_continue hcont]
  exact checkArgs_head_restricted hperm (user_is_restricted_of_witness hc hm ha hop)

/-- Witness for C2: a credential restricted for `update` on `docs` makes
the two-target call deny, although the second target alone would have
allowed the update through its `other` tier. -/
theorem restriction_short_circuit_witness :
    (Authorizer.mk ["update"] [] [] []).allowed
        (some ⟨3, some [⟨some "restricted", "restricted",
          some (some [("docs", ["update"])]), none⟩], none⟩)
        [⟨"docs", some ⟨none, none, some []⟩, none, none⟩,
         ⟨"pages", some ⟨none, none, some ["read", "update"]⟩, none, none⟩] = false
    ∧ (Authorizer.mk ["update"] [] [] []).allowed
        (some ⟨3, some [⟨some "restricted", "restricted",
          some (some [("docs", ["update"])]), none⟩], none⟩)
        [⟨"pages", some ⟨none, none, some ["read", "update"]⟩, none, none⟩] = true := by
  constructor
  · exact restriction_short_circuit _ _ []
      ⟨"docs", some ⟨none, none, some []⟩, none, none⟩
      [⟨"pages", some ⟨none, none, some ["read", "update"]⟩, none, none⟩]
      rfl rfl (by simp) ⟨none, none, some []⟩ rfl
      ⟨some "restricted", "restricted", some (some [("docs", ["update"])]), none⟩
      (by decide) [("docs", ["update"])] rfl "update" (by decide) (by decide)
  · decide

lemma gatherAllowances_none_of_bad {key : String} {creds : List Credential}
    {c : Credential} (hc : c ∈ creds)
    (hbad : c.allowances = none ∨ c.allowances = some none) :
    gatherAllowances key creds = none := by
  induction creds with
  | nil => cases hc
  | cons d rest ih =>
      rcases List.mem_cons.mp hc with h | h
      · subst h
        rcases hbad with hb | hb <;> simp [gatherAllowances, hb]
      · unfold gatherAllowances
        cases d.allowances with
        | none => rfl
        | some o =>
            cases o with
            | none => rfl
            | some m => simp [ih h]

lemma gatherAllowances_all_good {key : String} {creds : List Credential}
    (h : ∀ c ∈ creds, ∃ m, c.allowances = some (some m)) :
    gatherAllowances key creds = some (unionAllowances key creds) := by
  induction creds with
  | nil => rfl
  | cons d rest ih =>
      obtain ⟨m, hm⟩ := h d (by simp)
      unfold gatherAllowances unionAllowances
      rw [hm, ih (fun c hc => h c (by simp [hc]))]
      rfl

/-- C3. Allowance check semantics: with no credentials the check passes;
with any credential lacking a usable allowances map it passes; otherwise
it passes exactly when the operation set is contained in the union of
the per-credential allowance sets (with the per-credential default
fallback); and a failed allowance check on the target the evaluation
reaches denies the whole call. -/
theorem allowance_semantics :
    (∀ (u : User) (op : List String) (t : Target), credentialsOf u = [] →
        user_is_allowed u op t = true)
    ∧ (∀ (u : User) (op : List String) (t : Target) (c : Credential),
        c ∈ credentialsOf u → (c.allowances = none ∨ c.allowances = some none) →
        user_is_allowed u op t = true)
    ∧ (∀ (u : User) (op : List String) (t : Target), op.Nodup →
        credentialsOf u ≠ [] →
        (∀ c ∈ credentialsOf u, ∃ m, c.allowances = some (some m)) →
        (user_is_allowed u op t = true ↔
          ∀ a ∈ op, a ∈ unionAllowances t.typeKey (credentialsOf u)))
    ∧ (∀ (auth : Authorizer) (u : User) (ts1 : List Target) (t : Target) (ts2 : List Target),
        user_has_role u auth.has_role = false →
        user_in_group u auth.in_group = false →
        auth.permission ≠ [] →
        (∀ s ∈ ts1, targetContinues u (pyset auth.permission) s = true) →
        (∃ perms, t.permissions = some perms) →
        user_is_restricted u (pyset auth.permission) t = false →
        user_is_allowed u (pyset auth.permission) t = false →
        auth.allowed (some u) (ts1 ++ t :: ts2) = false) := by
  refine ⟨?_, ?_, ?_, ?_⟩
  · intro u op t h
    simp [user_is_allowed, h]
  · intro u op t c hc hbad
    have hemp : (credentialsOf u).isEmpty = false := by
      simp [List.isEmpty_iff, List.ne_nil_of_mem hc]
    unfold user_is_allowed
    simp only [hemp, Bool.false_eq_true, if_false, gatherAllowances_none_of_bad hc hbad]
  · intro u op t hop hne hall
    have hemp : (credentialsOf u).isEmpty = false := by
      simp [List.isEmpty_iff, hne]
    unfold user_is_allowed
    simp only [hemp, Bool.false_eq_true, if_false, gatherAllowances_all_good hall]
    rw [pyset_filter_length (unionAllowances t.typeKey (credentialsOf u)) hop, beq_iff_eq]
    exact filter_length_eq_iff.trans (by simp)
  · intro auth u ts1 t ts2 h1 h2 h3 hcont hperm hres hallow
    obtain ⟨perms, hp⟩ := hperm
    rw [allowed_eq_checkArgs h1 h2 h3, checkArgs_append_continue hcont,
      checkArgs_cons_some hp]
    simp [hres, hallow]

/-- Witness for C3: a user without credentials passes the allowance
check; a credential whose allowances map is Python `None` passes it; an
allowances map granting only `read` on `docs` makes an `update` call
deny; and the union characterization holds at a concrete instance. -/
theorem allowance_semantics_witness :
    user_is_allowed ⟨1, none, none⟩ ["update"]
        ⟨"docs", some ⟨none, none, some []⟩, none, none⟩ = true
    ∧ user_is_allowed ⟨2, some [⟨some "g", "g", none, some none⟩], none⟩ ["update"]
        ⟨"docs", some ⟨none, none, some []⟩, none, none⟩ = true
    ∧ user_is_allowed ⟨4, some [⟨some "g", "g", none, some (some [("docs", ["read"])])⟩], none⟩
        ["update"] ⟨"docs", some ⟨none, none, some []⟩, none, none⟩ = false
    ∧ (Authorizer.mk ["update"] [] [] []).allowed
        (some ⟨4, some [⟨some "g", "g", none, some (some [("docs", ["read"])])⟩], none⟩)
        [⟨"docs", some ⟨none, none, some ["read", "update"]⟩, none, none⟩] = false := by
  refine ⟨allowance_semantics.1 _ ["update"] _ rfl,
    allowance_semantics.2.1 _ ["update"] _ ⟨some "g", "g", none, some none⟩ (by decide)
      (Or.inr rfl), ?_, ?_⟩
  · have h := allowance_semantics.2.2.1 ⟨4, some [⟨some "g", "g", none,
      some (some [("docs", ["read"])])⟩], none⟩ ["update"]
      ⟨"docs", some ⟨none, none, some []⟩, none, none⟩ (by decide) (by decide)
      (fun c hc => ⟨[("docs", ["read"])], by
        simp only [credentialsOf] at hc
        simp at hc
        rw [hc]⟩)
    revert h
    decide
  · exact allowance_semantics.2.2.2 _ _ []
      ⟨"docs", some ⟨none, none, some ["read", "update"]⟩, none, none⟩ []
      rfl rfl (by decide) (by simp) ⟨⟨none, none, some ["read", "update"]⟩, rfl⟩
      (by decide) (by decide)

lemma tierCheck_eq_specTierAllows (u : User) (op : List String) (t : Target)
    (perms : Permissions) : tierCheck u op t perms = specTierAllows u op t perms := by
  unfold tierCheck specTierAllows
  cases h1 : has_permission op (perms.other.getD []) <;>
    rcases ho : t.owner with _ | o <;>
    rcases hg : t.group with _ | g <;>
    rcases hgs : u.groups with _ | gs <;>
    simp [h1]

lemma checkArgs_all_continue {u : User} {op : List String} {ts : List Target}
    (h : ∀ s ∈ ts, targetContinues u op s = true) : checkArgs u op ts = false := by
  induction ts with
  | nil => rfl
  | cons s ts ih =>
      rw [checkArgs_cons_continue (h s (by simp))]
      exact ih (fun x hx => h x (by simp [hx]))

/-- C4. Tier evaluation order and fallthrough: the sequential per-target
tier checks coincide with the spec's guarded three-way disjunction; an
exhausted target list denies; on a target that passes the restriction
and allowance checks the loop result is the tier disjunction or else the
result on the remaining targets; a tier success on the target reached
after continuing targets allows the whole call; and if the role and
group bypasses fail and every target merely continues, the decision is
deny. -/
theorem tier_order_and_fallthrough :
    (∀ (u : User) (op : List String) (t : Target) (perms : Permissions),
        tierCheck u op t perms = specTierAllows u op t perms)
    ∧ (∀ (u : User) (op : List String), checkArgs u op [] = false)
    ∧ (∀ (u : User) (op : List String) (t : Target) (perms : Permissions)
        (rest : List Target), t.permissions = some perms →
        user_is_restricted u op t = false → user_is_allowed u op t = true →
        checkArgs u op (t :: rest) = (specTierAllows u op t perms || checkArgs u op rest))
    ∧ (∀ (u : User) (op : List String) (ts1 : List Target) (t : Target)
        (perms : Permissions) (ts2 : List Target),
        (∀ s ∈ ts1, targetContinues u op s = true) → t.permissions = some perms →
        user_is_restricted u op t = false → user_is_allowed u op t = true →
        tierCheck u op t perms = true →
        checkArgs u op (ts1 ++ t :: ts2) = true)
    ∧ (∀ (auth : Authorizer) (u : User) (ts : List Target),
        user_has_role u auth.has_role = false →
        user_in_group u auth.in_group = false →
        (∀ s ∈ ts, targetContinues u (pyset auth.permission) s = true) →
        auth.allowed (some u) ts = false) := by
  refine ⟨tierCheck_eq_specTierAllows, fun _ _ => rfl, ?_, ?_, ?_⟩
  · intro u op t perms rest hp hres hallow
    rw [checkArgs_cons_some hp, ← tierCheck_eq_specTierAllows]
    cases htc : tierCheck u op t perms <;> simp [hres, hallow, htc]
  · intro u op ts1 t perms ts2 hcont hp hres hallow htier
    rw [checkArgs_append_continue hcont, checkArgs_cons_some hp]
    simp [hres, hallow, htier]
  · intro auth u ts h1 h2 hcont
    by_cases hpe : auth.permission = []
    · simp [Authorizer.allowed, h1, h2, hpe]
    · rw [allowed_eq_checkArgs h1 h2 hpe]
      exact checkArgs_all_continue hcont

/-- Witness for C4: the first target fails every tier while the second
target's owner tier succeeds, so the two-target call allows; and a lone
tier-failing target makes the call deny. -/
theorem tier_order_and_fallthrough_witness :
    checkArgs ⟨7, none, none⟩ ["read"]
        [⟨"docs", some ⟨none, none, some []⟩, none, none⟩,
         ⟨"docs", some ⟨some ["read", "update", "delete"], none, some []⟩,
           some ⟨7, none, none⟩, none⟩] = true
    ∧ (Authorizer.mk ["read"] [] [] []).allowed (some ⟨7, none, none⟩)
        [⟨"docs", some ⟨none, none, some []⟩, none, none⟩] = false := by
  constructor
  · exact tier_order_and_fallthrough.2.2.2.1 ⟨7, none, none⟩ ["read"]
      [⟨"docs", some ⟨none, none, some []⟩, none, none⟩]
      ⟨"docs", some ⟨some ["read", "update", "delete"], none, some []⟩,
        some ⟨7, none, none⟩, none⟩
      ⟨some ["read", "update", "delete"], none, some []⟩ []
      (by decide) rfl (by decide) (by decide) (by decide)
  · exact tier_order_and_fallthrough.2.2.2.2 _ _ _ rfl rfl (by decide)

lemma checkArgs_middle_skip {u : User} {op : List String} {t : Target}
    {ts2 : List Target} (h : t.permissions = none) (ts1 : List Target) :
    checkArgs u op (ts1 ++ t :: ts2) = checkArgs u op (ts1 ++ ts2) := by
  induction ts1 with
  | nil => exact checkArgs_cons_none h
  | cons s ts1 ih =>
      rw [List.cons_append, List.cons_append]
      cases hp : s.permissions with
      | none => rw [checkArgs_cons_none hp, checkArgs_cons_none hp, ih]
      | some perms => rw [checkArgs_cons_some hp, checkArgs_cons_some hp, ih]

/-- C7. Targets without a permissions attribute are transparent: for
every Requirement, subject and surrounding targets, inserting such a
target anywhere in the argument list leaves the decision unchanged. -/
theorem transparent_target (auth : Authorizer) (user : Option User)
    (ts1 ts2 : List Target) (t : Target) (h : t.permissions = none) :
    auth.allowed user (ts1 ++ t :: ts2) = auth.allowed user (ts1 ++ ts2) := by
  cases user with
  | none => rfl
  | some u =>
      have hc := @checkArgs_middle_skip u (pyset auth.permission) t ts2 h ts1
      simp only [Authorizer.allowed, hc]

/-- Witness for C7: a permission-less target inserted between two
targets changes neither an allowing decision nor, placed alone next to
nothing, a denying one. -/
theorem transparent_target_witness :
    (Authorizer.mk ["read"] [] [] []).allowed (some ⟨7, none, none⟩)
        [⟨"misc", none, none, none⟩, ⟨"docs", some ⟨none, none, some ["read"]⟩, none, none⟩] =
      (Authorizer.mk ["read"] [] [] []).allowed (some ⟨7, none, none⟩)
        [⟨"docs", some ⟨none, none, some ["read"]⟩, none, none⟩]
    ∧ (Authorizer.mk ["read"] [] [] []).allowed (some ⟨7, none, none⟩)
        [⟨"misc", none, none, none⟩] =
      (Authorizer.mk ["read"] [] [] []).allowed (some ⟨7, none, none⟩) [] := by
  exact ⟨transparent_target _ _ [] [⟨"docs", some ⟨none, none, some ["read"]⟩, none, none⟩]
      ⟨"misc", none, none, none⟩ rfl,
    transparent_target _ _ [] [] ⟨"misc", none, none, none⟩ rfl⟩

end Claims

end FlaskAuthorize
